import Mathlib

/-!
Shallow embedding of the real-time market-data pipeline
(`Trading_RealTime_Data`): data reconciliation, signal engine,
validator, normalizer, hot storage and websocket backoff.

Prices, quantities and notionals are Python floats in the source; they are
embedded as rationals (`ℚ`), so all arithmetic identities are exact.
Timestamps are embedded as integers (milliseconds, as on the wire).
-/

/-- Append to a Python `deque(maxlen=n)`: the new element goes to the back
and, if the buffer would exceed `maxlen`, the oldest elements at the front
are dropped.  Used by the signal engine history, the normalizer's
recent-trade window and the hot storage ring buffers. -/
def ringAppend (maxlen : ℕ) (buf : List α) (x : α) : List α :=
  let b := buf ++ [x]
  b.drop (b.length - maxlen)

namespace DataReconciliation

/-- Embedding of `DataReconciliation.verify_before_order`
(`src/core/data_reconciliation.py`).  The outcome of
`_fetch_rest_ticker` (an HTTP call) is passed in as `rest_fetch`:
`none` models a failed fetch (non-200 status, timeout or exception),
`some r` a response whose parsed `lastPrice` is `r`.  The source rejects
when the relative divergence `|rest - ws| / rest` exceeds `0.005`. -/
def verify_before_order (rest_fetch : Option ℚ) (ws_price : ℚ) :
    Bool × Option ℚ :=
  match rest_fetch with
  | none => (false, none)
  | some rest_price =>
    if |rest_price - ws_price| / rest_price > 5 / 1000 then
      (false, some rest_price)
    else
      (true, some rest_price)

end DataReconciliation

/-- C1: for every `verify_before_order(ws_price)` call with `ws_price > 0`:
a failed reference fetch yields `(false, none)`; a reference price `r` with
`|r - ws_price| / r > 0.005` yields `(false, some r)`; otherwise
`(true, some r)`.  Concretely, ws price 100.0 against reference 100.6 is
rejected and against reference 100.3 is accepted. -/
theorem verify_before_order_spec (ws_price : ℚ) (hws : 0 < ws_price) :
    DataReconciliation.verify_before_order none ws_price = (false, none)
    ∧ (∀ r : ℚ, |r - ws_price| / r > 5 / 1000 →
        DataReconciliation.verify_before_order (some r) ws_price
          = (false, some r))
    ∧ (∀ r : ℚ, ¬ (|r - ws_price| / r > 5 / 1000) →
        DataReconciliation.verify_before_order (some r) ws_price
          = (true, some r))
    ∧ DataReconciliation.verify_before_order (some (1006/10)) 100
        = (false, some (1006/10))
    ∧ DataReconciliation.verify_before_order (some (1003/10)) 100
        = (true, some (1003/10)) := by
  have h6 : |(1006/10 : ℚ) - 100| / (1006/10) > 5 / 1000 := by
    rw [abs_of_nonneg (by norm_num : (0:ℚ) ≤ 1006/10 - 100)]
    norm_num
  have h3 : ¬ (|(1003/10 : ℚ) - 100| / (1003/10) > 5 / 1000) := by
    rw [abs_of_nonneg (by norm_num : (0:ℚ) ≤ 1003/10 - 100)]
    norm_num
  refine ⟨rfl, ?_, ?_,
      by simp [DataReconciliation.verify_before_order, h6],
      by simp [DataReconciliation.verify_before_order, h3]⟩
  · intro r hr
    simp [DataReconciliation.verify_before_order, hr]
  · intro r hr
    simp [DataReconciliation.verify_before_order, hr]

/-- Witness for C1 at the concrete ws price 100. -/
theorem verify_before_order_spec_witness :
    (0 : ℚ) < 100
    ∧ (DataReconciliation.verify_before_order none 100 = (false, none)
      ∧ (∀ r : ℚ, |r - 100| / r > 5 / 1000 →
          DataReconciliation.verify_before_order (some r) 100
            = (false, some r))
      ∧ (∀ r : ℚ, ¬ (|r - 100| / r > 5 / 1000) →
          DataReconciliation.verify_before_order (some r) 100
            = (true, some r))
      ∧ DataReconciliation.verify_before_order (some (1006/10)) 100
          = (false, some (1006/10))
      ∧ DataReconciliation.verify_before_order (some (1003/10)) 100
          = (true, some (1003/10))) :=
  ⟨by norm_num, verify_before_order_spec 100 (by norm_num)⟩

namespace SignalEngine

/-- Direction returned by `SignalEngine._check_price_change`. -/
inductive PriceDirection
  | UP
  | DOWN
deriving DecidableEq

/-- Entry signal returned by `SignalEngine.update_orderbook`. -/
inductive Signal
  | LONG
  | SHORT
deriving DecidableEq

/-- The configuration the engine reads from `Settings` in
`SignalEngine.__init__` (`src/core/signal_engine_v1.py`); windows are in
seconds. -/
structure SEConfig where
  volume_spike_window : ℚ
  volume_spike_baseline : ℚ
  volume_spike_ratio : ℚ
  price_change_window : ℚ
  price_change_threshold : ℚ
  imbalance_threshold : ℚ

/-- Notional volume of the top five levels of one side of the book:
`sum(float(b[1]) for b in orderbook.bids[:5])` in
`SignalEngine.update_orderbook`. -/
def topVolume (levels : List (ℚ × ℚ)) : ℚ :=
  ((levels.take 5).map fun l => l.2).sum

/-- `SignalEngine._check_volume_spike`.  `hist` is `self.trade_history`
in chronological order (`(timestamp, amount_usdt, price)` triples, the
deque bound of 5000 handled at insertion) and `now` is `time.time()`. -/
def check_volume_spike (cfg : SEConfig) (now : ℚ)
    (hist : List (ℚ × ℚ × ℚ)) : Bool :=
  if hist.length < 2 then false
  else
    let recent :=
      ((hist.filter fun t => decide (now - t.1 ≤ cfg.volume_spike_window)).map
        fun t => t.2.1).sum
    let baseline_start := now - cfg.volume_spike_baseline - cfg.volume_spike_window
    let baseline_end := now - cfg.volume_spike_window
    let baseline :=
      ((hist.filter fun t =>
          decide (baseline_start ≤ t.1 ∧ t.1 < baseline_end)).map
        fun t => t.2.1).sum
    if baseline = 0 then false
    else
      let recent_per_sec := recent / cfg.volume_spike_window
      let baseline_per_sec := baseline / cfg.volume_spike_baseline
      decide (cfg.volume_spike_ratio ≤ recent_per_sec / baseline_per_sec)

/-- `SignalEngine._check_price_change`: fractional change between first
and last price seen inside the trailing `price_change_window`. -/
def check_price_change (cfg : SEConfig) (now : ℚ)
    (hist : List (ℚ × ℚ × ℚ)) : Option PriceDirection :=
  if hist.length < 2 then none
  else
    let recent_prices :=
      (hist.filter fun t => decide (now - t.1 ≤ cfg.price_change_window)).map
        fun t => t.2.2
    if recent_prices.length < 2 then none
    else
      let start_price := recent_prices.headI
      let end_price := recent_prices.getLastI
      let change := (end_price - start_price) / start_price
      if cfg.price_change_threshold ≤ change then some PriceDirection.UP
      else if change ≤ -cfg.price_change_threshold then some PriceDirection.DOWN
      else none

/-- `SignalEngine.update_orderbook`: the strict entry policy.  The write
to `self.last_imbalance` (only read by `check_exit_signal`) is dropped;
the returned signal is exactly the source's return value. -/
def update_orderbook (cfg : SEConfig) (now : ℚ) (hist : List (ℚ × ℚ × ℚ))
    (bids asks : List (ℚ × ℚ)) : Option Signal :=
  let bid_volume := topVolume bids
  let ask_volume := topVolume asks
  let total := bid_volume + ask_volume
  if total = 0 then none
  else
    let imbalance := bid_volume / total
    let volume_spike := check_volume_spike cfg now hist
    let price_direction := check_price_change cfg now hist
    if volume_spike then
      match price_direction with
      | some PriceDirection.UP =>
          if cfg.imbalance_threshold ≤ imbalance then some Signal.LONG else none
      | some PriceDirection.DOWN =>
          if imbalance ≤ 1 - cfg.imbalance_threshold then some Signal.SHORT
          else none
      | none => none
    else none

/-- Spec scenario configuration: 2s spike and price windows, 3h baseline,
5x spike multiple, 0.3% price threshold, 0.65 imbalance threshold. -/
def c2Cfg : SEConfig := ⟨2, 10800, 5, 2, 3/1000, 13/20⟩

/-- Spec scenario clock. -/
def c2Now : ℚ := 10802

/-- Spec scenario trade history: one baseline trade, then a 100.0 → 100.35
move inside the final 2-second window carrying notional far above 5x the
baseline per-second rate. -/
def c2Hist : List (ℚ × ℚ × ℚ) :=
  [(0, 100, 100), (10801, 500, 100), (10802, 500, 2007/20)]

/-- Same price path but with the volume-spike condition removed: the
recent window's notional rate is far below 5x baseline. -/
def c2HistNoSpike : List (ℚ × ℚ × ℚ) :=
  [(0, 108000, 100), (10801, 1, 100), (10802, 1, 2007/20)]

/-- Spec scenario book: bid/ask volumes 70/30 (ratio 0.7 ≥ 0.65). -/
def c2Bids : List (ℚ × ℚ) := [(100, 70)]

/-- Spec scenario ask side. -/
def c2Asks : List (ℚ × ℚ) := [(2007/20, 30)]

end SignalEngine

/-- C2: under the strict policy `update_orderbook` returns `LONG` iff the
volume-spike condition, the `UP` price-direction condition and bid-heavy
imbalance (top-5 bid volume over total ≥ threshold) all hold, and `SHORT`
symmetrically for `DOWN` and ask-heavy; any partial match yields `none`.
In the concrete scenario (100.0 → 100.35 inside the 2s window, ≥ 5x
volume spike, 70/30 book at threshold 0.65) the result is `LONG`, and
with the volume-spike condition alone removed it is `none`. -/
theorem update_orderbook_strict (cfg : SignalEngine.SEConfig) (now : ℚ)
    (hist : List (ℚ × ℚ × ℚ)) (bids asks : List (ℚ × ℚ))
    (hth : 1/2 < cfg.imbalance_threshold)
    (hb : ∀ p ∈ bids, 0 ≤ p.2) (ha : ∀ p ∈ asks, 0 ≤ p.2) :
    (SignalEngine.update_orderbook cfg now hist bids asks
        = some SignalEngine.Signal.LONG ↔
      (SignalEngine.check_volume_spike cfg now hist = true
        ∧ SignalEngine.check_price_change cfg now hist
            = some SignalEngine.PriceDirection.UP
        ∧ cfg.imbalance_threshold ≤
            SignalEngine.topVolume bids /
              (SignalEngine.topVolume bids + SignalEngine.topVolume asks)))
    ∧ (SignalEngine.update_orderbook cfg now hist bids asks
        = some SignalEngine.Signal.SHORT ↔
      (SignalEngine.check_volume_spike cfg now hist = true
        ∧ SignalEngine.check_price_change cfg now hist
            = some SignalEngine.PriceDirection.DOWN
        ∧ cfg.imbalance_threshold ≤
            SignalEngine.topVolume asks /
              (SignalEngine.topVolume bids + SignalEngine.topVolume asks)))
    ∧ SignalEngine.update_orderbook SignalEngine.c2Cfg SignalEngine.c2Now
        SignalEngine.c2Hist SignalEngine.c2Bids SignalEngine.c2Asks
        = some SignalEngine.Signal.LONG
    ∧ SignalEngine.check_volume_spike SignalEngine.c2Cfg SignalEngine.c2Now
        SignalEngine.c2HistNoSpike = false
    ∧ SignalEngine.check_price_change SignalEngine.c2Cfg SignalEngine.c2Now
        SignalEngine.c2HistNoSpike = some SignalEngine.PriceDirection.UP
    ∧ SignalEngine.update_orderbook SignalEngine.c2Cfg SignalEngine.c2Now
        SignalEngine.c2HistNoSpike SignalEngine.c2Bids SignalEngine.c2Asks
        = none := by
  open SignalEngine in
  have hB : 0 ≤ topVolume bids := by
    refine List.sum_nonneg ?_
    intro x hx
    obtain ⟨l, hl, rfl⟩ := List.mem_map.1 hx
    exact hb l (List.mem_of_mem_take hl)
  open SignalEngine in
  have hA : 0 ≤ topVolume asks := by
    refine List.sum_nonneg ?_
    intro x hx
    obtain ⟨l, hl, rfl⟩ := List.mem_map.1 hx
    exact ha l (List.mem_of_mem_take hl)
  open SignalEngine in
  refine ⟨?_, ?_, ?_, ?_, ?_, ?_⟩
  · by_cases htot : topVolume bids + topVolume asks = 0
    · have hB0 : topVolume bids = 0 := le_antisymm (by linarith) hB
      constructor
      · intro h
        simp [update_orderbook, htot] at h
      · rintro ⟨-, -, h3⟩
        rw [htot, div_zero] at h3
        linarith
    · cases hvs : check_volume_spike cfg now hist with
      | false => simp [update_orderbook, htot, hvs]
      | true =>
        cases hpd : check_price_change cfg now hist with
        | none => simp [update_orderbook, htot, hvs, hpd]
        | some dir =>
          cases dir with
          | UP =>
            by_cases hc : cfg.imbalance_threshold ≤
                topVolume bids / (topVolume bids + topVolume asks)
            · simp [update_orderbook, htot, hvs, hpd, hc]
            · simp [update_orderbook, htot, hvs, hpd, hc]
          | DOWN => simp [update_orderbook, htot, hvs, hpd]
  · by_cases htot : topVolume bids + topVolume asks = 0
    · have hA0 : topVolume asks = 0 := le_antisymm (by linarith) hA
      constructor
      · intro h
        simp [update_orderbook, htot] at h
      · rintro ⟨-, -, h3⟩
        rw [htot, div_zero] at h3
        linarith
    · have htot' : 0 < topVolume bids + topVolume asks :=
        (add_nonneg hB hA).lt_of_ne (Ne.symm htot)
      have key : cfg.imbalance_threshold ≤
            topVolume asks / (topVolume bids + topVolume asks) ↔
          topVolume bids / (topVolume bids + topVolume asks) ≤
            1 - cfg.imbalance_threshold := by
        rw [le_div_iff₀ htot', div_le_iff₀ htot']
        constructor <;> intro h <;> nlinarith [h]
      cases hvs : check_volume_spike cfg now hist with
      | false => simp [update_orderbook, htot, hvs]
      | true =>
        cases hpd : check_price_change cfg now hist with
        | none => simp [update_orderbook, htot, hvs, hpd]
        | some dir =>
          cases dir with
          | UP => simp [update_orderbook, htot, hvs, hpd]
          | DOWN =>
            by_cases hc : topVolume bids / (topVolume bids + topVolume asks) ≤
                1 - cfg.imbalance_threshold
            · simp [update_orderbook, htot, hvs, hpd, hc, key]
            · simp [update_orderbook, htot, hvs, hpd, hc, key]
  · norm_num [update_orderbook, topVolume, c2Bids, c2Asks, check_volume_spike,
      check_price_change, c2Cfg, c2Now, c2Hist, List.filter, List.headI,
      List.getLastI]
  · norm_num [check_volume_spike, c2Cfg, c2Now, c2HistNoSpike, List.filter]
  · norm_num [check_price_change, c2Cfg, c2Now, c2HistNoSpike, List.filter,
      List.headI, List.getLastI]
  · norm_num [update_orderbook, topVolume, c2Bids, c2Asks, check_volume_spike,
      check_price_change, c2Cfg, c2Now, c2HistNoSpike, List.filter, List.headI,
      List.getLastI]

/-- Witness for C2 at the spec scenario inputs. -/
theorem update_orderbook_strict_witness :
    ((1:ℚ)/2 < SignalEngine.c2Cfg.imbalance_threshold)
    ∧ (∀ p ∈ SignalEngine.c2Bids, (0:ℚ) ≤ p.2)
    ∧ (∀ p ∈ SignalEngine.c2Asks, (0:ℚ) ≤ p.2)
    ∧ ((SignalEngine.update_orderbook SignalEngine.c2Cfg SignalEngine.c2Now
          SignalEngine.c2Hist SignalEngine.c2Bids SignalEngine.c2Asks
          = some SignalEngine.Signal.LONG ↔
        (SignalEngine.check_volume_spike SignalEngine.c2Cfg SignalEngine.c2Now
            SignalEngine.c2Hist = true
          ∧ SignalEngine.check_price_change SignalEngine.c2Cfg
              SignalEngine.c2Now SignalEngine.c2Hist
              = some SignalEngine.PriceDirection.UP
          ∧ SignalEngine.c2Cfg.imbalance_threshold ≤
              SignalEngine.topVolume SignalEngine.c2Bids /
                (SignalEngine.topVolume SignalEngine.c2Bids +
                  SignalEngine.topVolume SignalEngine.c2Asks)))
      ∧ (SignalEngine.update_orderbook SignalEngine.c2Cfg SignalEngine.c2Now
          SignalEngine.c2Hist SignalEngine.c2Bids SignalEngine.c2Asks
          = some SignalEngine.Signal.SHORT ↔
        (SignalEngine.check_volume_spike SignalEngine.c2Cfg SignalEngine.c2Now
            SignalEngine.c2Hist = true
          ∧ SignalEngine.check_price_change SignalEngine.c2Cfg
              SignalEngine.c2Now SignalEngine.c2Hist
              = some SignalEngine.PriceDirection.DOWN
          ∧ SignalEngine.c2Cfg.imbalance_threshold ≤
              SignalEngine.topVolume SignalEngine.c2Asks /
                (SignalEngine.topVolume SignalEngine.c2Bids +
                  SignalEngine.topVolume SignalEngine.c2Asks)))
      ∧ SignalEngine.update_orderbook SignalEngine.c2Cfg SignalEngine.c2Now
          SignalEngine.c2Hist SignalEngine.c2Bids SignalEngine.c2Asks
          = some SignalEngine.Signal.LONG
      ∧ SignalEngine.check_volume_spike SignalEngine.c2Cfg SignalEngine.c2Now
          SignalEngine.c2HistNoSpike = false
      ∧ SignalEngine.check_price_change SignalEngine.c2Cfg SignalEngine.c2Now
          SignalEngine.c2HistNoSpike = some SignalEngine.PriceDirection.UP
      ∧ SignalEngine.update_orderbook SignalEngine.c2Cfg SignalEngine.c2Now
          SignalEngine.c2HistNoSpike SignalEngine.c2Bids SignalEngine.c2Asks
          = none) :=
  ⟨by norm_num [SignalEngine.c2Cfg],
   by intro p hp; simp [SignalEngine.c2Bids] at hp; simp [hp],
   by intro p hp; simp [SignalEngine.c2Asks] at hp; simp [hp],
   update_orderbook_strict SignalEngine.c2Cfg SignalEngine.c2Now
     SignalEngine.c2Hist SignalEngine.c2Bids SignalEngine.c2Asks
     (by norm_num [SignalEngine.c2Cfg])
     (by intro p hp; simp [SignalEngine.c2Bids] at hp; simp [hp])
     (by intro p hp; simp [SignalEngine.c2Asks] at hp; simp [hp])⟩

/-- Wire-level aggregate trade (`src/models/trade.py`).  `price` and
`quantity` are decimal strings on the wire; they are embedded
post-`float()` as rationals, so the null / unparseable rejection branch
of validation cannot arise in this model. -/
structure Trade where
  event_time : ℤ
  symbol : String
  aggregate_trade_id : ℕ
  price : ℚ
  quantity : ℚ
  first_trade_id : ℕ
  last_trade_id : ℕ
  trade_time : ℤ
  is_buyer_maker : Bool
deriving DecidableEq

/-- Wire-level order-book snapshot/delta (`src/models/order_book.py`),
levels embedded post-`float()` as `(price, quantity)` rationals. -/
structure OrderBook where
  event_time : ℤ
  symbol : String
  first_update_id : ℕ
  final_update_id : ℕ
  bids : List (ℚ × ℚ)
  asks : List (ℚ × ℚ)
deriving DecidableEq

namespace DataValidator

/-- `ValidationErrorType` enum (`src/data_collector/data_validator.py`). -/
inductive ValidationErrorType
  | NULL_VALUE
  | NEGATIVE_PRICE
  | NEGATIVE_QUANTITY
  | INVALID_TIMESTAMP
  | OUT_OF_ORDER
  | DUPLICATE
  | EMPTY_ORDERBOOK
  | INVALID_SYMBOL
deriving DecidableEq

/-- `ValidationResult` dataclass; the free-text `error_message` is
dropped (it is a log string with no further reads). -/
structure ValidationResult where
  is_valid : Bool
  error_type : Option ValidationErrorType := none
deriving DecidableEq

/-- The mutable fields of `DataValidator`.  `recent_trade_ids` is a
Python `set`; it is embedded as a duplicate-free list (insertion adds at
the back when absent).  `error_counts` is the per-kind counter dict. -/
structure ValidatorState where
  expected_symbols : List String
  recent_trade_ids : List ℕ
  max_trade_ids : ℕ
  last_trade_timestamp : ℤ
  last_orderbook_timestamp : ℤ
  total_validated : ℕ
  total_errors : ℕ
  error_counts : ValidationErrorType → ℕ

/-- `DataValidator._record_error`: bump the error counters and return an
invalid result carrying the error kind. -/
def record_error (s : ValidatorState) (e : ValidationErrorType) :
    ValidationResult × ValidatorState :=
  (⟨false, some e⟩,
   { s with
      total_errors := s.total_errors + 1,
      error_counts := fun k =>
        if k = e then s.error_counts k + 1 else s.error_counts k })

/-- `DataValidator.is_duplicate_trade`. -/
def is_duplicate_trade (s : ValidatorState) (trade_id : ℕ) : Bool :=
  s.recent_trade_ids.contains trade_id

/-- `DataValidator.is_out_of_order_trade`. -/
def is_out_of_order_trade (s : ValidatorState) (timestamp : ℤ) : Bool :=
  decide (timestamp < s.last_trade_timestamp)

/-- `DataValidator.is_out_of_order_orderbook`. -/
def is_out_of_order_orderbook (s : ValidatorState) (timestamp : ℤ) : Bool :=
  decide (timestamp < s.last_orderbook_timestamp)

/-- `DataValidator._add_trade_id`: set-insert the id, and when the set
exceeds `max_trade_ids`, `set.pop()` evicts one member whose choice
CPython leaves unspecified — modelled by the `evict` choice function. -/
def add_trade_id (evict : List ℕ → ℕ) (s : ValidatorState) (trade_id : ℕ) :
    ValidatorState :=
  let ids :=
    if s.recent_trade_ids.contains trade_id then s.recent_trade_ids
    else s.recent_trade_ids ++ [trade_id]
  let ids := if s.max_trade_ids < ids.length then ids.erase (evict ids) else ids
  { s with recent_trade_ids := ids }

/-- `DataValidator.validate_trade`: the check sequence of the source,
short-circuiting at the first failure; an out-of-order timestamp is only
logged, and on success the id is stored and the last-trade timestamp
advances via `max`. -/
def validate_trade (evict : List ℕ → ℕ) (s : ValidatorState) (t : Trade) :
    ValidationResult × ValidatorState :=
  let s := { s with total_validated := s.total_validated + 1 }
  if t.price ≤ 0 then record_error s ValidationErrorType.NEGATIVE_PRICE
  else if t.quantity ≤ 0 then record_error s ValidationErrorType.NEGATIVE_QUANTITY
  else if t.trade_time ≤ 0 then record_error s ValidationErrorType.INVALID_TIMESTAMP
  else if t.symbol ∉ s.expected_symbols then
    record_error s ValidationErrorType.INVALID_SYMBOL
  else if is_duplicate_trade s t.aggregate_trade_id then
    record_error s ValidationErrorType.DUPLICATE
  else
    let s := add_trade_id evict s t.aggregate_trade_id
    let s := { s with
      last_trade_timestamp := max s.last_trade_timestamp t.trade_time }
    (⟨true, none⟩, s)

/-- `DataValidator.validate_orderbook`: empty-side, timestamp, symbol and
top-5 level checks; out-of-order is only logged; on success the
last-orderbook timestamp advances via `max`. -/
def validate_orderbook (s : ValidatorState) (ob : OrderBook) :
    ValidationResult × ValidatorState :=
  let s := { s with total_validated := s.total_validated + 1 }
  if ob.bids = [] ∨ ob.asks = [] then
    record_error s ValidationErrorType.EMPTY_ORDERBOOK
  else if ob.event_time ≤ 0 then
    record_error s ValidationErrorType.INVALID_TIMESTAMP
  else if ob.symbol ∉ s.expected_symbols then
    record_error s ValidationErrorType.INVALID_SYMBOL
  else if (ob.bids.take 5).any (fun l => decide (l.1 ≤ 0 ∨ l.2 < 0)) then
    record_error s ValidationErrorType.NEGATIVE_PRICE
  else if (ob.asks.take 5).any (fun l => decide (l.1 ≤ 0 ∨ l.2 < 0)) then
    record_error s ValidationErrorType.NEGATIVE_PRICE
  else
    let s := { s with
      last_orderbook_timestamp := max s.last_orderbook_timestamp ob.event_time }
    (⟨true, none⟩, s)

end DataValidator

namespace DataNormalizer

/-- `NormalizedTrade` dataclass (`src/data_collector/data_normalizer.py`). -/
structure NormalizedTrade where
  timestamp : ℤ
  symbol : String
  trade_id : ℕ
  price : ℚ
  quantity : ℚ
  is_buyer_maker : Bool
  amount_usdt : ℚ
  side : String
  is_large_trade : Bool
  vwap : Option ℚ
  cumulative_volume : Option ℚ
deriving DecidableEq

/-- `NormalizedOrderBook` dataclass. -/
structure NormalizedOrderBook where
  timestamp : ℤ
  symbol : String
  update_id : ℕ
  best_bid : ℚ
  best_ask : ℚ
  mid_price : ℚ
  spread : ℚ
  spread_bps : ℚ
  total_bid_volume : ℚ
  total_ask_volume : ℚ
  bid_ask_ratio : ℚ
  imbalance : ℚ
  bids : List (ℚ × ℚ)
  asks : List (ℚ × ℚ)
deriving DecidableEq

/-- Mutable `DataNormalizer` fields: the large-trade threshold and book
depth from construction, the `deque(maxlen=100)` of recent
`(price, quantity, amount)` triples and the cumulative volume counter. -/
structure NormalizerState where
  large_trade_threshold : ℚ
  orderbook_depth : ℕ
  recent_trades : List (ℚ × ℚ × ℚ)
  cumulative_volume : ℚ

/-- `DataNormalizer._calculate_vwap`. -/
def calculate_vwap (s : NormalizerState) : Option ℚ :=
  if s.recent_trades = [] then none
  else
    let total_pq := (s.recent_trades.map fun t => t.1 * t.2.1).sum
    let total_qty := (s.recent_trades.map fun t => t.2.1).sum
    if total_qty = 0 then none else some (total_pq / total_qty)

/-- `DataNormalizer.normalize_trade`: derived notional, side, large-trade
flag and trailing VWAP, plus the rolling-state update. -/
def normalize_trade (s : NormalizerState) (t : Trade) :
    NormalizedTrade × NormalizerState :=
  let price := t.price
  let quantity := t.quantity
  let amount_usdt := price * quantity
  let side := if t.is_buyer_maker then "SELL" else "BUY"
  let is_large_trade := decide (s.large_trade_threshold ≤ amount_usdt)
  let vwap := calculate_vwap s
  let cumulative_volume := s.cumulative_volume + quantity
  let s' := { s with
    cumulative_volume := cumulative_volume,
    recent_trades :=
      ringAppend 100 s.recent_trades (price, quantity, amount_usdt) }
  (⟨t.trade_time, t.symbol, t.aggregate_trade_id, price, quantity,
    t.is_buyer_maker, amount_usdt, side, is_large_trade, vwap,
    some cumulative_volume⟩, s')

/-- `DataNormalizer._create_empty_normalized_orderbook`: the zero-valued
record returned when a side is empty. -/
def create_empty_normalized_orderbook (ob : OrderBook) : NormalizedOrderBook :=
  ⟨ob.event_time, ob.symbol, ob.final_update_id,
    0, 0, 0, 0, 0, 0, 0, 0, 0, [], []⟩

/-- `DataNormalizer.normalize_orderbook`: top-`orderbook_depth` levels,
best bid/ask, mid, spread(+bps), aggregated volumes, ratio and
imbalance. -/
def normalize_orderbook (s : NormalizerState) (ob : OrderBook) :
    NormalizedOrderBook :=
  let bids := ob.bids.take s.orderbook_depth
  let asks := ob.asks.take s.orderbook_depth
  match bids, asks with
  | [], _ => create_empty_normalized_orderbook ob
  | _, [] => create_empty_normalized_orderbook ob
  | b0 :: _, a0 :: _ =>
    let best_bid := b0.1
    let best_ask := a0.1
    let mid_price := (best_bid + best_ask) / 2
    let spread := best_ask - best_bid
    let spread_bps := if 0 < mid_price then spread / mid_price * 10000 else 0
    let total_bid_volume := (bids.map fun l => l.2).sum
    let total_ask_volume := (asks.map fun l => l.2).sum
    let bid_ask_ratio :=
      if 0 < total_ask_volume then total_bid_volume / total_ask_volume else 0
    let total := total_bid_volume + total_ask_volume
    let imbalance :=
      if 0 < total then (total_bid_volume - total_ask_volume) / total else 0
    ⟨ob.event_time, ob.symbol, ob.final_update_id, best_bid, best_ask,
      mid_price, spread, spread_bps, total_bid_volume, total_ask_volume,
      bid_ask_ratio, imbalance, bids, asks⟩

end DataNormalizer

/-- C3: for every trade with positive price and quantity, the normalized
record's notional equals `price × quantity` exactly and its side is the
deterministic two-valued function of the maker flag (the source spells
the side values `"SELL"` / `"BUY"`). -/
theorem normalize_trade_spec (s : DataNormalizer.NormalizerState) (t : Trade)
    (hp : 0 < t.price) (hq : 0 < t.quantity) :
    (DataNormalizer.normalize_trade s t).1.amount_usdt = t.price * t.quantity
    ∧ ((DataNormalizer.normalize_trade s t).1.side
        = if t.is_buyer_maker then "SELL" else "BUY")
    ∧ ((DataNormalizer.normalize_trade s t).1.side = "SELL"
        ∨ (DataNormalizer.normalize_trade s t).1.side = "BUY") := by
  refine ⟨rfl, rfl, ?_⟩
  cases hm : t.is_buyer_maker <;> simp [DataNormalizer.normalize_trade, hm]

/-- Trade for the C3 witness. -/
def c3Trade : Trade := ⟨1, "BTCUSDT", 7, 100, 2, 7, 7, 1, false⟩

/-- Normalizer state with the default construction arguments
(`large_trade_threshold=10000`, `orderbook_depth=5`). -/
def defaultNState : DataNormalizer.NormalizerState := ⟨10000, 5, [], 0⟩

/-- Witness for C3 at a concrete trade. -/
theorem normalize_trade_spec_witness :
    (0 < c3Trade.price ∧ 0 < c3Trade.quantity)
    ∧ ((DataNormalizer.normalize_trade defaultNState c3Trade).1.amount_usdt
        = c3Trade.price * c3Trade.quantity
      ∧ ((DataNormalizer.normalize_trade defaultNState c3Trade).1.side
          = if c3Trade.is_buyer_maker then "SELL" else "BUY")
      ∧ ((DataNormalizer.normalize_trade defaultNState c3Trade).1.side = "SELL"
        ∨ (DataNormalizer.normalize_trade defaultNState c3Trade).1.side
            = "BUY")) :=
  ⟨⟨by norm_num [c3Trade], by norm_num [c3Trade]⟩,
   normalize_trade_spec defaultNState c3Trade (by norm_num [c3Trade])
     (by norm_num [c3Trade])⟩

/-- Fresh validator state with the default construction arguments. -/
def c4VState : DataValidator.ValidatorState :=
  ⟨["BTCUSDT"], [], 1000, 0, 0, 0, 0, fun _ => 0⟩

/-- A crossed order book: best bid 101 above best ask 100, both levels
with positive price and nonnegative quantity. -/
def c4Book : OrderBook := ⟨1, "BTCUSDT", 1, 2, [(101, 1)], [(100, 1)]⟩

/-- C4 counterexample: the crossed book `c4Book` passes
`validate_orderbook` unchanged (validation never compares bid and ask
prices), yet its normalized spread is negative. -/
theorem crossed_book_counterexample :
    (DataValidator.validate_orderbook c4VState c4Book).1.is_valid = true
    ∧ (DataNormalizer.normalize_orderbook defaultNState c4Book).spread < 0 := by
  constructor
  · norm_num [DataValidator.validate_orderbook, c4VState, c4Book,
      DataValidator.record_error, List.any]
  · norm_num [DataNormalizer.normalize_orderbook, defaultNState, c4Book]

/-- C4 (amended): for every order book that passes validation, the
normalized spread equals `best_ask - best_bid`, and it is nonnegative
whenever the book is uncrossed (`best_bid ≤ best_ask`) — a property
validation itself does not enforce. -/
theorem normalize_orderbook_spread (vs : DataValidator.ValidatorState)
    (ns : DataNormalizer.NormalizerState) (ob : OrderBook)
    (hvalid : (DataValidator.validate_orderbook vs ob).1.is_valid = true)
    (hcross : (DataNormalizer.normalize_orderbook ns ob).best_bid
      ≤ (DataNormalizer.normalize_orderbook ns ob).best_ask) :
    (DataNormalizer.normalize_orderbook ns ob).spread
      = (DataNormalizer.normalize_orderbook ns ob).best_ask
        - (DataNormalizer.normalize_orderbook ns ob).best_bid
    ∧ 0 ≤ (DataNormalizer.normalize_orderbook ns ob).spread := by
  rcases hB : ob.bids.take ns.orderbook_depth with _ | ⟨b0, bs⟩ <;>
    rcases hA : ob.asks.take ns.orderbook_depth with _ | ⟨a0, as⟩ <;>
    simp [DataNormalizer.normalize_orderbook, hB, hA,
      DataNormalizer.create_empty_normalized_orderbook] at hcross ⊢ <;>
    linarith

/-- An uncrossed valid order book for the C4 and C5 witnesses. -/
def c4GoodBook : OrderBook := ⟨1, "BTCUSDT", 1, 2, [(100, 1)], [(101, 1)]⟩

/-- Witness for the amended C4 at a concrete uncrossed book. -/
theorem normalize_orderbook_spread_witness :
    ((DataValidator.validate_orderbook c4VState c4GoodBook).1.is_valid = true
      ∧ (DataNormalizer.normalize_orderbook defaultNState c4GoodBook).best_bid
        ≤ (DataNormalizer.normalize_orderbook defaultNState c4GoodBook).best_ask)
    ∧ ((DataNormalizer.normalize_orderbook defaultNState c4GoodBook).spread
        = (DataNormalizer.normalize_orderbook defaultNState c4GoodBook).best_ask
          - (DataNormalizer.normalize_orderbook defaultNState c4GoodBook).best_bid
      ∧ 0 ≤ (DataNormalizer.normalize_orderbook defaultNState c4GoodBook).spread) :=
  ⟨⟨by norm_num [DataValidator.validate_orderbook, c4VState, c4GoodBook,
      DataValidator.record_error, List.any],
    by norm_num [DataNormalizer.normalize_orderbook, defaultNState, c4GoodBook]⟩,
   normalize_orderbook_spread c4VState defaultNState c4GoodBook
     (by norm_num [DataValidator.validate_orderbook, c4VState, c4GoodBook,
        DataValidator.record_error, List.any])
     (by norm_num [DataNormalizer.normalize_orderbook, defaultNState,
        c4GoodBook])⟩

/-- C5: when the top-N levels on both sides carry nonnegative quantities
the normalized imbalance lies in `[-1, 1]`, equals
`(bid_vol - ask_vol) / (bid_vol + ask_vol)` whenever the total volume is
positive (both volumes being zero gives 0), and is 0 whenever the two
volumes are equal. -/
theorem normalize_orderbook_imbalance (ns : DataNormalizer.NormalizerState)
    (ob : OrderBook)
    (hb : ∀ l ∈ ob.bids.take ns.orderbook_depth, (0:ℚ) ≤ l.2)
    (ha : ∀ l ∈ ob.asks.take ns.orderbook_depth, (0:ℚ) ≤ l.2) :
    (-1 ≤ (DataNormalizer.normalize_orderbook ns ob).imbalance
      ∧ (DataNormalizer.normalize_orderbook ns ob).imbalance ≤ 1)
    ∧ (0 < (DataNormalizer.normalize_orderbook ns ob).total_bid_volume
          + (DataNormalizer.normalize_orderbook ns ob).total_ask_volume →
        (DataNormalizer.normalize_orderbook ns ob).imbalance
          = ((DataNormalizer.normalize_orderbook ns ob).total_bid_volume
              - (DataNormalizer.normalize_orderbook ns ob).total_ask_volume)
            / ((DataNormalizer.normalize_orderbook ns ob).total_bid_volume
              + (DataNormalizer.normalize_orderbook ns ob).total_ask_volume))
    ∧ ((DataNormalizer.normalize_orderbook ns ob).total_bid_volume
          = (DataNormalizer.normalize_orderbook ns ob).total_ask_volume →
        (DataNormalizer.normalize_orderbook ns ob).imbalance = 0) := by
  rcases hB : ob.bids.take ns.orderbook_depth with _ | ⟨b0, bs⟩ <;>
    rcases hA : ob.asks.take ns.orderbook_depth with _ | ⟨a0, as⟩
  · simp [DataNormalizer.normalize_orderbook, hB, hA,
      DataNormalizer.create_empty_normalized_orderbook]
  · simp [DataNormalizer.normalize_orderbook, hB, hA,
      DataNormalizer.create_empty_normalized_orderbook]
  · simp [DataNormalizer.normalize_orderbook, hB, hA,
      DataNormalizer.create_empty_normalized_orderbook]
  · rw [hB] at hb
    rw [hA] at ha
    have hBsum : (0:ℚ) ≤ ((b0 :: bs).map fun l => l.2).sum := by
      refine List.sum_nonneg ?_
      intro x hx
      obtain ⟨l, hl, rfl⟩ := List.mem_map.1 hx
      exact hb l hl
    have hAsum : (0:ℚ) ≤ ((a0 :: as).map fun l => l.2).sum := by
      refine List.sum_nonneg ?_
      intro x hx
      obtain ⟨l, hl, rfl⟩ := List.mem_map.1 hx
      exact ha l hl
    simp only [DataNormalizer.normalize_orderbook, hB, hA]
    set B := ((b0 :: bs).map fun l => l.2).sum with hBdef
    set A := ((a0 :: as).map fun l => l.2).sum with hAdef
    by_cases htot : 0 < B + A
    · rw [if_pos htot]
      refine ⟨⟨?_, ?_⟩, fun _ => rfl, fun hEq => ?_⟩
      · rw [le_div_iff₀ htot]
        linarith
      · rw [div_le_one htot]
        linarith
      · rw [hEq, sub_self, zero_div]
    · rw [if_neg htot]
      refine ⟨⟨by norm_num, by norm_num⟩, fun h => absurd h htot, fun _ => rfl⟩

/-- Witness for C5 at a concrete book. -/
theorem normalize_orderbook_imbalance_witness :
    ((∀ l ∈ c4GoodBook.bids.take defaultNState.orderbook_depth, (0:ℚ) ≤ l.2)
      ∧ (∀ l ∈ c4GoodBook.asks.take defaultNState.orderbook_depth, (0:ℚ) ≤ l.2))
    ∧ ((-1 ≤ (DataNormalizer.normalize_orderbook defaultNState c4GoodBook).imbalance
        ∧ (DataNormalizer.normalize_orderbook defaultNState c4GoodBook).imbalance ≤ 1)
      ∧ (0 < (DataNormalizer.normalize_orderbook defaultNState c4GoodBook).total_bid_volume
            + (DataNormalizer.normalize_orderbook defaultNState c4GoodBook).total_ask_volume →
          (DataNormalizer.normalize_orderbook defaultNState c4GoodBook).imbalance
            = ((DataNormalizer.normalize_orderbook defaultNState c4GoodBook).total_bid_volume
                - (DataNormalizer.normalize_orderbook defaultNState c4GoodBook).total_ask_volume)
              / ((DataNormalizer.normalize_orderbook defaultNState c4GoodBook).total_bid_volume
                + (DataNormalizer.normalize_orderbook defaultNState c4GoodBook).total_ask_volume))
      ∧ ((DataNormalizer.normalize_orderbook defaultNState c4GoodBook).total_bid_volume
            = (DataNormalizer.normalize_orderbook defaultNState c4GoodBook).total_ask_volume →
          (DataNormalizer.normalize_orderbook defaultNState c4GoodBook).imbalance = 0)) :=
  ⟨⟨by simp [c4GoodBook, defaultNState], by simp [c4GoodBook, defaultNState]⟩,
   normalize_orderbook_imbalance defaultNState c4GoodBook
     (by simp [c4GoodBook, defaultNState])
     (by simp [c4GoodBook, defaultNState])⟩

namespace DataValidator

@[simp] lemma add_trade_id_expected_symbols (evict : List ℕ → ℕ)
    (s : ValidatorState) (trade_id : ℕ) :
    (add_trade_id evict s trade_id).expected_symbols = s.expected_symbols := rfl

@[simp] lemma add_trade_id_max_trade_ids (evict : List ℕ → ℕ)
    (s : ValidatorState) (trade_id : ℕ) :
    (add_trade_id evict s trade_id).max_trade_ids = s.max_trade_ids := rfl

@[simp] lemma add_trade_id_last_trade_timestamp (evict : List ℕ → ℕ)
    (s : ValidatorState) (trade_id : ℕ) :
    (add_trade_id evict s trade_id).last_trade_timestamp
      = s.last_trade_timestamp := rfl

@[simp] lemma add_trade_id_last_orderbook_timestamp (evict : List ℕ → ℕ)
    (s : ValidatorState) (trade_id : ℕ) :
    (add_trade_id evict s trade_id).last_orderbook_timestamp
      = s.last_orderbook_timestamp := rfl

/-- Below capacity, `_add_trade_id` appends the fresh id and evicts
nothing. -/
lemma add_trade_id_below_cap (evict : List ℕ → ℕ) (s : ValidatorState)
    (trade_id : ℕ) (hid : trade_id ∉ s.recent_trade_ids)
    (hcap : s.recent_trade_ids.length < s.max_trade_ids) :
    (add_trade_id evict s trade_id).recent_trade_ids
      = s.recent_trade_ids ++ [trade_id] := by
  have hc : s.recent_trade_ids.contains trade_id = false := by
    simpa using hid
  simp only [add_trade_id, hc, Bool.false_eq_true, if_false, List.length_append,
    List.length_singleton]
  rw [if_neg (by omega)]

/-- At capacity, when the unspecified-choice eviction happens to pick the
freshly inserted id, `_add_trade_id` leaves the dedup set unchanged — the
fresh id is gone again. -/
lemma add_trade_id_full_evict (evict : List ℕ → ℕ) (s : ValidatorState)
    (trade_id : ℕ) (hid : trade_id ∉ s.recent_trade_ids)
    (hfull : s.max_trade_ids ≤ s.recent_trade_ids.length)
    (hev : evict (s.recent_trade_ids ++ [trade_id]) = trade_id) :
    (add_trade_id evict s trade_id).recent_trade_ids = s.recent_trade_ids := by
  have hc : s.recent_trade_ids.contains trade_id = false := by simpa using hid
  simp only [add_trade_id, hc, Bool.false_eq_true, if_false, List.length_append,
    List.length_singleton]
  rw [if_pos (by omega), hev, List.erase_append_right _ hid,
    List.erase_cons_head, List.append_nil]

end DataValidator

/-- C6 (amended): for a trade id absent from the dedup set, while the set
is strictly below its capacity `max_trade_ids`, two successive
submissions of otherwise-valid trades with that id yield exactly one
acceptance and then one `DUPLICATE` rejection.  (At capacity the
arbitrary-member eviction of `set.pop()` may evict the just-added id, see
the counterexample.) -/
theorem dedup_idempotence (evict : List ℕ → ℕ)
    (s : DataValidator.ValidatorState) (t : Trade)
    (hid : t.aggregate_trade_id ∉ s.recent_trade_ids)
    (hcap : s.recent_trade_ids.length < s.max_trade_ids)
    (hp : 0 < t.price) (hq : 0 < t.quantity) (ht : 0 < t.trade_time)
    (hsym : t.symbol ∈ s.expected_symbols) :
    (DataValidator.validate_trade evict s t).1.is_valid = true
    ∧ (DataValidator.validate_trade evict
        (DataValidator.validate_trade evict s t).2 t).1.is_valid = false
    ∧ (DataValidator.validate_trade evict
        (DataValidator.validate_trade evict s t).2 t).1.error_type
        = some DataValidator.ValidationErrorType.DUPLICATE := by
  open DataValidator in
  have h1 : ¬ t.price ≤ 0 := not_le.2 hp
  have h2 : ¬ t.quantity ≤ 0 := not_le.2 hq
  have h3 : ¬ t.trade_time ≤ 0 := not_le.2 ht
  have h4 : ¬ t.symbol ∉ s.expected_symbols := not_not_intro hsym
  open DataValidator in
  have hids : ∀ s' : DataValidator.ValidatorState,
      s'.recent_trade_ids = s.recent_trade_ids →
      s'.max_trade_ids = s.max_trade_ids →
      (add_trade_id evict s' t.aggregate_trade_id).recent_trade_ids
        = s.recent_trade_ids ++ [t.aggregate_trade_id] := by
    intro s' hr hm
    rw [add_trade_id_below_cap evict s' t.aggregate_trade_id (hr ▸ hid)
      (by rw [hr, hm]; exact hcap)]
    rw [hr]
  open DataValidator in
  have hids2 := hids { s with total_validated := s.total_validated + 1 } rfl rfl
  open DataValidator in
  refine ⟨?_, ?_, ?_⟩ <;>
    simp [validate_trade, record_error, is_duplicate_trade, h1, h2, h3, h4,
      hid, hids2]

/-- Eviction choice used in the C6 counterexample: always pick id 0,
matching the CPython behaviour that `set.pop()` returns the element in
the lowest hash slot (small ints hash to themselves, so a fresh id 0 sits
in slot 0). -/
def c6Evict : List ℕ → ℕ := fun _ => 0

/-- Validator state whose dedup set is exactly at its capacity of 1000
ids (1..1000). -/
def c6FullState : DataValidator.ValidatorState :=
  ⟨["BTCUSDT"], (List.range 1000).map (fun n => n + 1), 1000, 0, 0, 0, 0,
    fun _ => 0⟩

/-- Otherwise-valid trade with the fresh id 0. -/
def c6Trade : Trade := ⟨1, "BTCUSDT", 0, 1, 1, 0, 0, 1, false⟩

set_option maxRecDepth 4000 in
/-- C6 counterexample: with the dedup set at capacity, inserting the
fresh id triggers the arbitrary eviction, which may remove that very id;
the second submission of the same id is then accepted as well — two
acceptances, no `DUPLICATE` rejection. -/
theorem dedup_idempotence_counterexample :
    (DataValidator.validate_trade c6Evict c6FullState c6Trade).1.is_valid
        = true
    ∧ (DataValidator.validate_trade c6Evict
        (DataValidator.validate_trade c6Evict c6FullState c6Trade).2
        c6Trade).1.is_valid = true := by
  open DataValidator in
  have hid : c6Trade.aggregate_trade_id ∉ c6FullState.recent_trade_ids := by
    simp [c6Trade, c6FullState]
  open DataValidator in
  have hfull : c6FullState.max_trade_ids
      ≤ c6FullState.recent_trade_ids.length := by
    simp [c6FullState]
  open DataValidator in
  have hids2 : (add_trade_id c6Evict
      { c6FullState with total_validated := c6FullState.total_validated + 1 }
      c6Trade.aggregate_trade_id).recent_trade_ids
        = c6FullState.recent_trade_ids :=
    add_trade_id_full_evict c6Evict _ _ hid hfull rfl
  have h1 : ¬ c6Trade.price ≤ 0 := by norm_num [c6Trade]
  have h2 : ¬ c6Trade.quantity ≤ 0 := by norm_num [c6Trade]
  have h3 : ¬ c6Trade.trade_time ≤ 0 := by norm_num [c6Trade]
  open DataValidator in
  have h4 : ¬ c6Trade.symbol ∉ c6FullState.expected_symbols := by
    simp [c6Trade, c6FullState]
  open DataValidator in
  refine ⟨?_, ?_⟩ <;>
    simp [validate_trade, record_error, is_duplicate_trade, h1, h2, h3, h4,
      hid, hids2]

/-- Witness for the amended C6 at a concrete below-capacity state. -/
theorem dedup_idempotence_witness :
    (c6Trade.aggregate_trade_id ∉ c4VState.recent_trade_ids
      ∧ c4VState.recent_trade_ids.length < c4VState.max_trade_ids
      ∧ 0 < c6Trade.price ∧ 0 < c6Trade.quantity ∧ 0 < c6Trade.trade_time
      ∧ c6Trade.symbol ∈ c4VState.expected_symbols)
    ∧ ((DataValidator.validate_trade c6Evict c4VState c6Trade).1.is_valid
          = true
      ∧ (DataValidator.validate_trade c6Evict
          (DataValidator.validate_trade c6Evict c4VState c6Trade).2
          c6Trade).1.is_valid = false
      ∧ (DataValidator.validate_trade c6Evict
          (DataValidator.validate_trade c6Evict c4VState c6Trade).2
          c6Trade).1.error_type
          = some DataValidator.ValidationErrorType.DUPLICATE) :=
  ⟨⟨by simp [c6Trade, c4VState], by simp [c4VState], by norm_num [c6Trade],
    by norm_num [c6Trade], by norm_num [c6Trade], by simp [c6Trade, c4VState]⟩,
   dedup_idempotence c6Evict c4VState c6Trade (by simp [c6Trade, c4VState])
     (by simp [c4VState]) (by norm_num [c6Trade]) (by norm_num [c6Trade])
     (by norm_num [c6Trade]) (by simp [c6Trade, c4VState])⟩

/-- C9: a record that passes every rejection check is accepted no matter
how its timestamp compares to the last accepted one — in particular even
when it is strictly older (out-of-order is only logged) — and the stored
last-accepted timestamp afterwards equals `max(previous, new)`, hence
never decreases; both for trades and for order books. -/
theorem out_of_order_never_fails (evict : List ℕ → ℕ)
    (s : DataValidator.ValidatorState) (t : Trade) (ob : OrderBook)
    (hp : 0 < t.price) (hq : 0 < t.quantity) (ht : 0 < t.trade_time)
    (hsym : t.symbol ∈ s.expected_symbols)
    (hdup : t.aggregate_trade_id ∉ s.recent_trade_ids)
    (hbne : ob.bids ≠ []) (hane : ob.asks ≠ [])
    (hot : 0 < ob.event_time) (hosym : ob.symbol ∈ s.expected_symbols)
    (hblev : ∀ l ∈ ob.bids.take 5, 0 < l.1 ∧ 0 ≤ l.2)
    (halev : ∀ l ∈ ob.asks.take 5, 0 < l.1 ∧ 0 ≤ l.2) :
    ((DataValidator.validate_trade evict s t).1.is_valid = true
      ∧ (DataValidator.validate_trade evict s t).2.last_trade_timestamp
          = max s.last_trade_timestamp t.trade_time
      ∧ s.last_trade_timestamp
          ≤ (DataValidator.validate_trade evict s t).2.last_trade_timestamp)
    ∧ ((DataValidator.validate_orderbook s ob).1.is_valid = true
      ∧ (DataValidator.validate_orderbook s ob).2.last_orderbook_timestamp
          = max s.last_orderbook_timestamp ob.event_time
      ∧ s.last_orderbook_timestamp
          ≤ (DataValidator.validate_orderbook s ob).2.last_orderbook_timestamp)
    := by
  open DataValidator in
  have h1 : ¬ t.price ≤ 0 := not_le.2 hp
  have h2 : ¬ t.quantity ≤ 0 := not_le.2 hq
  have h3 : ¬ t.trade_time ≤ 0 := not_le.2 ht
  have h4 : ¬ t.symbol ∉ s.expected_symbols := not_not_intro hsym
  have h5 : ¬ ob.event_time ≤ 0 := not_le.2 hot
  have h6 : ¬ ob.symbol ∉ s.expected_symbols := not_not_intro hosym
  have hb5 : (ob.bids.take 5).any (fun l => decide (l.1 ≤ 0 ∨ l.2 < 0))
      = false := by
    rw [List.any_eq_false]
    intro l hl
    simp only [decide_eq_true_eq]
    push_neg
    exact hblev l hl
  have ha5 : (ob.asks.take 5).any (fun l => decide (l.1 ≤ 0 ∨ l.2 < 0))
      = false := by
    rw [List.any_eq_false]
    intro l hl
    simp only [decide_eq_true_eq]
    push_neg
    exact halev l hl
  have hor : ¬ (ob.bids = [] ∨ ob.asks = []) := by
    push_neg
    exact ⟨hbne, hane⟩
  open DataValidator in
  have hob : validate_orderbook s ob
      = (⟨true, none⟩,
        { s with total_validated := s.total_validated + 1,
                 last_orderbook_timestamp :=
                   max s.last_orderbook_timestamp ob.event_time }) := by
    simp only [validate_orderbook]
    rw [if_neg hor, if_neg h5, if_neg h6, hb5, ha5]
    simp
  open DataValidator in
  refine ⟨⟨?_, ?_, ?_⟩, ⟨?_, ?_, ?_⟩⟩ <;>
    simp [validate_trade, is_duplicate_trade, record_error, hob,
      h1, h2, h3, h4, hdup, le_max_left]

/-- Validator state for the C9 witness whose last accepted timestamps
are already 5, ahead of the incoming records. -/
def c9State : DataValidator.ValidatorState :=
  ⟨["BTCUSDT"], [], 1000, 5, 5, 0, 0, fun _ => 0⟩

/-- Out-of-order trade for the C9 witness (trade time 1 < 5). -/
def c9Trade : Trade := ⟨1, "BTCUSDT", 3, 1, 1, 0, 0, 1, false⟩

/-- Out-of-order order book for the C9 witness (event time 2 < 5). -/
def c9Book : OrderBook := ⟨2, "BTCUSDT", 1, 2, [(100, 1)], [(101, 1)]⟩

/-- Witness for C9 at concrete out-of-order records. -/
theorem out_of_order_never_fails_witness :
    (0 < c9Trade.price ∧ 0 < c9Trade.quantity ∧ 0 < c9Trade.trade_time
      ∧ c9Trade.symbol ∈ c9State.expected_symbols
      ∧ c9Trade.aggregate_trade_id ∉ c9State.recent_trade_ids
      ∧ c9Book.bids ≠ [] ∧ c9Book.asks ≠ []
      ∧ 0 < c9Book.event_time ∧ c9Book.symbol ∈ c9State.expected_symbols
      ∧ (∀ l ∈ c9Book.bids.take 5, 0 < l.1 ∧ 0 ≤ l.2)
      ∧ (∀ l ∈ c9Book.asks.take 5, 0 < l.1 ∧ 0 ≤ l.2)
      ∧ c9Trade.trade_time < c9State.last_trade_timestamp
      ∧ c9Book.event_time < c9State.last_orderbook_timestamp)
    ∧ (((DataValidator.validate_trade c6Evict c9State c9Trade).1.is_valid = true
      ∧ (DataValidator.validate_trade c6Evict c9State c9Trade).2.last_trade_timestamp
          = max c9State.last_trade_timestamp c9Trade.trade_time
      ∧ c9State.last_trade_timestamp
          ≤ (DataValidator.validate_trade c6Evict c9State c9Trade).2.last_trade_timestamp)
    ∧ ((DataValidator.validate_orderbook c9State c9Book).1.is_valid = true
      ∧ (DataValidator.validate_orderbook c9State c9Book).2.last_orderbook_timestamp
          = max c9State.last_orderbook_timestamp c9Book.event_time
      ∧ c9State.last_orderbook_timestamp
          ≤ (DataValidator.validate_orderbook c9State c9Book).2.last_orderbook_timestamp)) :=
  ⟨⟨by norm_num [c9Trade], by norm_num [c9Trade], by norm_num [c9Trade],
    by simp [c9Trade, c9State], by simp [c9Trade, c9State],
    by simp [c9Book], by simp [c9Book], by norm_num [c9Book],
    by simp [c9Book, c9State], by norm_num [c9Book], by norm_num [c9Book],
    by norm_num [c9Trade, c9State], by norm_num [c9Book, c9State]⟩,
   out_of_order_never_fails c6Evict c9State c9Trade c9Book
     (by norm_num [c9Trade]) (by norm_num [c9Trade]) (by norm_num [c9Trade])
     (by simp [c9Trade, c9State]) (by simp [c9Trade, c9State])
     (by simp [c9Book]) (by simp [c9Book]) (by norm_num [c9Book])
     (by simp [c9Book, c9State]) (by norm_num [c9Book])
     (by norm_num [c9Book])⟩

namespace HotStorage

/-- Mutable `HotStorage` fields (`src/storage/hot_storage.py`): ring
buffers, `SortedDict` time indexes (embedded as key-sorted association
lists), latest-record pointers and counters. -/
structure HotState where
  trades : List DataNormalizer.NormalizedTrade
  orderbooks : List DataNormalizer.NormalizedOrderBook
  trade_index : List (ℤ × DataNormalizer.NormalizedTrade)
  orderbook_index : List (ℤ × DataNormalizer.NormalizedOrderBook)
  latest_trade : Option DataNormalizer.NormalizedTrade
  latest_orderbook : Option DataNormalizer.NormalizedOrderBook
  total_trades_stored : ℕ
  total_orderbooks_stored : ℕ

/-- The freshly constructed storage. -/
def emptyState : HotState := ⟨[], [], [], [], none, none, 0, 0⟩

/-- `SortedDict.__setitem__`: ordered insert that replaces the entry when
the key already exists, so the index holds at most one record per
timestamp. -/
def idxInsert {α : Type} : List (ℤ × α) → ℤ → α → List (ℤ × α)
  | [], k, v => [(k, v)]
  | (k', v') :: rest, k, v =>
    if k < k' then (k, v) :: (k', v') :: rest
    else if k = k' then (k, v) :: rest
    else (k', v') :: idxInsert rest k v

/-- `_cleanup_old_trades` / `_cleanup_old_orderbooks`: delete every index
key older than `now - ttl` (timestamps and the cutoff in milliseconds);
the early return on an empty index is a no-op under `filter`. -/
def cleanup_old {α : Type} (ttl_seconds now_ms : ℤ) (idx : List (ℤ × α)) :
    List (ℤ × α) :=
  idx.filter fun p => decide (now_ms - ttl_seconds * 1000 ≤ p.1)

/-- `HotStorage.add_trade`: append to the ring buffer, insert into the
time index, update the latest pointer, bump the counter, then run the
TTL cleanup.  `now_ms` is the wall clock the cleanup reads. -/
def add_trade (max_trades : ℕ) (ttl_seconds now_ms : ℤ) (s : HotState)
    (t : DataNormalizer.NormalizedTrade) : HotState :=
  { s with
    trades := ringAppend max_trades s.trades t,
    trade_index :=
      cleanup_old ttl_seconds now_ms (idxInsert s.trade_index t.timestamp t),
    latest_trade := some t,
    total_trades_stored := s.total_trades_stored + 1 }

/-- `HotStorage.add_orderbook`, the order-book twin of `add_trade`. -/
def add_orderbook (max_orderbooks : ℕ) (ttl_seconds now_ms : ℤ) (s : HotState)
    (ob : DataNormalizer.NormalizedOrderBook) : HotState :=
  { s with
    orderbooks := ringAppend max_orderbooks s.orderbooks ob,
    orderbook_index :=
      cleanup_old ttl_seconds now_ms (idxInsert s.orderbook_index ob.timestamp ob),
    latest_orderbook := some ob,
    total_orderbooks_stored := s.total_orderbooks_stored + 1 }

/-- `HotStorage.get_trades_since`: every indexed trade with timestamp at
least the bound, in key order. -/
def get_trades_since (s : HotState) (timestamp_ms : ℤ) :
    List DataNormalizer.NormalizedTrade :=
  (s.trade_index.filter fun p => decide (timestamp_ms ≤ p.1)).map Prod.snd

/-- `HotStorage.get_trades_range`. -/
def get_trades_range (s : HotState) (start_ms end_ms : ℤ) :
    List DataNormalizer.NormalizedTrade :=
  (s.trade_index.filter fun p =>
    decide (start_ms ≤ p.1 ∧ p.1 ≤ end_ms)).map Prod.snd

/-- `HotStorage.get_recent_trades`: `list(self.trades)[-count:]` when the
buffer holds at least `count` trades, else the whole buffer.  Python's
`[-0:]` slice is the whole list, hence the `count = 0` branch. -/
def get_recent_trades (s : HotState) (count : ℕ) :
    List DataNormalizer.NormalizedTrade :=
  if count ≤ s.trades.length then
    (if count = 0 then s.trades else s.trades.drop (s.trades.length - count))
  else s.trades

/-- `HotStorage.get_trades_in_window`. -/
def get_trades_in_window (s : HotState) (window_seconds now_ms : ℤ) :
    List DataNormalizer.NormalizedTrade :=
  get_trades_since s (now_ms - window_seconds * 1000)

/-- `HotStorage.calculate_volume_in_window`. -/
def calculate_volume_in_window (s : HotState) (window_seconds now_ms : ℤ) :
    ℚ :=
  ((get_trades_in_window s window_seconds now_ms).map
    fun t => t.quantity).sum

/-- `HotStorage.calculate_vwap_in_window`. -/
def calculate_vwap_in_window (s : HotState) (window_seconds now_ms : ℤ) :
    Option ℚ :=
  let trades := get_trades_in_window s window_seconds now_ms
  if trades = [] then none
  else
    let total_pq := (trades.map fun t => t.price * t.quantity).sum
    let total_qty := (trades.map fun t => t.quantity).sum
    if total_qty = 0 then none else some (total_pq / total_qty)

/-- `HotStorage.get_large_trades_in_window`. -/
def get_large_trades_in_window (s : HotState) (window_seconds now_ms : ℤ) :
    List DataNormalizer.NormalizedTrade :=
  (get_trades_in_window s window_seconds now_ms).filter
    fun t => t.is_large_trade

end HotStorage

/-- Length of a bounded-deque append. -/
lemma ringAppend_length (maxlen : ℕ) (b : List α) (x : α) :
    (ringAppend maxlen b x).length = min (b.length + 1) maxlen := by
  simp [ringAppend]
  omega

/-- Folding a bounded-deque append over a list keeps exactly the last
`maxlen` elements. -/
lemma foldl_ringAppend (maxlen : ℕ) (L : List α) : ∀ (b : List α),
    b.length ≤ maxlen →
    L.foldl (ringAppend maxlen) b
      = (b ++ L).drop (b.length + L.length - maxlen) := by
  induction L with
  | nil =>
    intro b h
    simp only [List.foldl_nil, List.append_nil, List.length_nil, Nat.add_zero]
    rw [Nat.sub_eq_zero_of_le h, List.drop_zero]
  | cons x L ih =>
    intro b h
    have hb' : (ringAppend maxlen b x).length ≤ maxlen := by
      rw [ringAppend_length]
      omega
    rw [List.foldl_cons, ih _ hb']
    have heq : ringAppend maxlen b x ++ L
        = ((b ++ [x]) ++ L).drop (b.length + 1 - maxlen) := by
      rw [List.drop_append_eq_append_drop]
      have h1 : b.length + 1 - maxlen - (b ++ [x]).length = 0 := by
        simp only [List.length_append, List.length_singleton]
        omega
      rw [h1, List.drop_zero]
      simp [ringAppend]
    rw [heq, List.drop_drop]
    rw [show (b ++ x :: L) = (b ++ [x]) ++ L from by simp]
    congr 1
    rw [ringAppend_length]
    simp only [List.length_append, List.length_singleton, List.length_cons]
    omega

namespace HotStorage

/-- The ring buffer is driven only by the previous buffer: the index-side
TTL cleanup inside `add_trade` never touches it. -/
lemma foldl_add_trade_trades (max_trades : ℕ) (ttl now : ℤ)
    (L : List DataNormalizer.NormalizedTrade) : ∀ (s : HotState),
    (L.foldl (fun s t => add_trade max_trades ttl now s t) s).trades
      = L.foldl (ringAppend max_trades) s.trades := by
  induction L with
  | nil => intro s; rfl
  | cons x L ih =>
    intro s
    rw [List.foldl_cons, List.foldl_cons, ih]
    rfl

end HotStorage

/-- C7: inserting `capacity + 1` trades into a fresh Hot Store leaves
exactly `capacity` trades in the ring buffer with the oldest one evicted;
and a trade stamped `now - ttl - 1` (milliseconds, one past the TTL
horizon) is purged from the time index by the cleanup that its own
insertion triggers, while `get_recent_trades` still reports it from the
ring buffer — the two bounds are not reconciled. -/
theorem hot_storage_capacity_and_ttl (max_trades : ℕ) (ttl now : ℤ)
    (L : List DataNormalizer.NormalizedTrade)
    (t : DataNormalizer.NormalizedTrade) (count : ℕ)
    (hL : L.length = max_trades + 1) (hcap : 0 < max_trades)
    (hcount : 1 ≤ count)
    (ht : t.timestamp = now - ttl * 1000 - 1) :
    ((L.foldl (fun s x => HotStorage.add_trade max_trades ttl now s x)
        HotStorage.emptyState).trades = L.drop 1
      ∧ (L.foldl (fun s x => HotStorage.add_trade max_trades ttl now s x)
          HotStorage.emptyState).trades.length = max_trades)
    ∧ ((HotStorage.add_trade max_trades ttl now HotStorage.emptyState
          t).trade_index = []
      ∧ t ∈ HotStorage.get_recent_trades
          (HotStorage.add_trade max_trades ttl now HotStorage.emptyState t)
          count) := by
  have htr : (L.foldl (fun s x => HotStorage.add_trade max_trades ttl now s x)
      HotStorage.emptyState).trades = L.drop 1 := by
    rw [HotStorage.foldl_add_trade_trades]
    have : (HotStorage.emptyState.trades).length ≤ max_trades := by
      simp [HotStorage.emptyState]
    rw [foldl_ringAppend _ _ _ this]
    simp [HotStorage.emptyState, hL]
  refine ⟨⟨htr, ?_⟩, ?_, ?_⟩
  · rw [htr]
    simp [hL]
  · have hcond : ¬ (now - ttl * 1000 ≤ t.timestamp) := by omega
    simp [HotStorage.add_trade, HotStorage.emptyState, HotStorage.cleanup_old,
      HotStorage.idxInsert, hcond]
    omega
  · have hone : (HotStorage.add_trade max_trades ttl now
        HotStorage.emptyState t).trades = [t] := by
      simp [HotStorage.add_trade, HotStorage.emptyState, ringAppend,
        Nat.sub_eq_zero_of_le hcap]
    rcases eq_or_lt_of_le hcount with h1 | h1
    · simp [HotStorage.get_recent_trades, hone, ← h1]
    · have hgt : ¬ count ≤ 1 := by omega
      simp [HotStorage.get_recent_trades, hone, hgt]

/-- Concrete trades for the C7 witness. -/
def c7T1 : DataNormalizer.NormalizedTrade :=
  ⟨4999000, "BTCUSDT", 11, 100, 1, false, 100, "BUY", false, none, none⟩

/-- Second C7 witness trade. -/
def c7T2 : DataNormalizer.NormalizedTrade :=
  ⟨4999500, "BTCUSDT", 12, 100, 1, false, 100, "BUY", false, none, none⟩

/-- Third C7 witness trade. -/
def c7T3 : DataNormalizer.NormalizedTrade :=
  ⟨5000000, "BTCUSDT", 13, 100, 1, false, 100, "BUY", false, none, none⟩

/-- Trade exactly one millisecond past the TTL horizon for
`now = 5000000`, `ttl = 3600` seconds. -/
def c7Old : DataNormalizer.NormalizedTrade :=
  ⟨1399999, "BTCUSDT", 10, 100, 1, false, 100, "BUY", false, none, none⟩

/-- Witness for C7 with capacity 2, three inserted trades, and one
over-TTL trade. -/
theorem hot_storage_capacity_and_ttl_witness :
    (([c7T1, c7T2, c7T3].length = 2 + 1 ∧ 0 < 2 ∧ 1 ≤ 1
      ∧ c7Old.timestamp = 5000000 - 3600 * 1000 - 1)
    ∧ (([c7T1, c7T2, c7T3].foldl
          (fun s x => HotStorage.add_trade 2 3600 5000000 s x)
          HotStorage.emptyState).trades = [c7T1, c7T2, c7T3].drop 1
      ∧ ([c7T1, c7T2, c7T3].foldl
          (fun s x => HotStorage.add_trade 2 3600 5000000 s x)
          HotStorage.emptyState).trades.length = 2)
    ∧ ((HotStorage.add_trade 2 3600 5000000 HotStorage.emptyState
          c7Old).trade_index = []
      ∧ c7Old ∈ HotStorage.get_recent_trades
          (HotStorage.add_trade 2 3600 5000000 HotStorage.emptyState c7Old)
          1)) :=
  ⟨⟨by simp, by norm_num, by norm_num, by norm_num [c7Old]⟩,
   hot_storage_capacity_and_ttl 2 3600 5000000 [c7T1, c7T2, c7T3] c7Old 1
     (by simp) (by norm_num) (by norm_num) (by norm_num [c7Old])⟩

namespace HotStorage

/-- Every key of `idxInsert idx k v` is `k` or a key of `idx`. -/
lemma mem_keys_idxInsert {α : Type} : ∀ (idx : List (ℤ × α)) (k : ℤ) (v : α)
    (b : ℤ), b ∈ (idxInsert idx k v).map Prod.fst →
    b = k ∨ b ∈ idx.map Prod.fst := by
  intro idx
  induction idx with
  | nil =>
    intro k v b hb
    simp [idxInsert] at hb
    exact Or.inl hb
  | cons p rest ih =>
    intro k v b hb
    by_cases h1 : k < p.1
    · simp only [idxInsert, if_pos h1] at hb
      simp only [List.map_cons, List.mem_cons] at hb ⊢
      tauto
    · by_cases h2 : k = p.1
      · simp only [idxInsert, if_neg h1, if_pos h2] at hb
        simp only [List.map_cons, List.mem_cons] at hb ⊢
        tauto
      · simp only [idxInsert, if_neg h1, if_neg h2] at hb
        simp only [List.map_cons, List.mem_cons] at hb ⊢
        rcases hb with hb | hb
        · tauto
        · rcases ih k v b hb with h | h
          · tauto
          · tauto

/-- `SortedDict` insertion keeps the key list strictly increasing. -/
lemma idxInsert_keys_sorted {α : Type} : ∀ (idx : List (ℤ × α)) (k : ℤ)
    (v : α), (idx.map Prod.fst).Pairwise (· < ·) →
    ((idxInsert idx k v).map Prod.fst).Pairwise (· < ·) := by
  intro idx
  induction idx with
  | nil =>
    intro k v _
    simp [idxInsert]
  | cons p rest ih =>
    intro k v h
    rw [List.map_cons, List.pairwise_cons] at h
    obtain ⟨hp, hrest⟩ := h
    by_cases h1 : k < p.1
    · simp only [idxInsert, if_pos h1, List.map_cons, List.pairwise_cons]
      refine ⟨?_, ?_, ?_⟩
      · intro b hb
        rcases List.mem_cons.1 hb with rfl | hb
        · exact h1
        · exact h1.trans (hp b hb)
      · exact hp
      · exact hrest
    · by_cases h2 : k = p.1
      · subst h2
        rw [show idxInsert (p :: rest) p.1 v = (p.1, v) :: rest from by
          simp [idxInsert, h1]]
        simp only [List.map_cons, List.pairwise_cons]
        exact ⟨hp, hrest⟩
      · have hpk : p.1 < k := by omega
        simp only [idxInsert, if_neg h1, if_neg h2, List.map_cons,
          List.pairwise_cons]
        refine ⟨?_, ih k v hrest⟩
        intro b hb
        rcases mem_keys_idxInsert rest k v b hb with rfl | hb'
        · exact hpk
        · exact hp b hb'

/-- The freshly inserted pair is always present afterwards. -/
lemma idxInsert_mem_self {α : Type} : ∀ (idx : List (ℤ × α)) (k : ℤ) (v : α),
    (k, v) ∈ idxInsert idx k v := by
  intro idx
  induction idx with
  | nil =>
    intro k v
    simp [idxInsert]
  | cons p rest ih =>
    intro k v
    by_cases h1 : k < p.1
    · simp [idxInsert, h1]
    · by_cases h2 : k = p.1
      · simp [idxInsert, h1, h2]
      · simp [idxInsert, h1, h2, ih k v]

end HotStorage

/-- Large trade for the C10 timestamp-collision scenario. -/
def c10T1 : DataNormalizer.NormalizedTrade :=
  ⟨1000, "BTCUSDT", 1, 100, 3, false, 300, "BUY", true, none, none⟩

/-- Second trade with the same timestamp as `c10T1`. -/
def c10T2 : DataNormalizer.NormalizedTrade :=
  ⟨1000, "BTCUSDT", 2, 101, 2, false, 202, "BUY", false, none, none⟩

/-- Hot Store after adding the two equal-timestamp trades. -/
def c10S : HotStorage.HotState :=
  HotStorage.add_trade 10 3600 1000
    (HotStorage.add_trade 10 3600 1000 HotStorage.emptyState c10T1) c10T2

/-- C10: the time index holds at most one record per timestamp (keys stay
strictly sorted, hence duplicate-free, and an insert with an existing key
replaces that entry), so after adding two trades sharing a timestamp the
ring buffer holds both while the index, the since/range queries and the
window aggregation helpers see only the later one — strictly fewer trades
than were added (volume 2 of the 5 added, VWAP of the survivor only, and
the large first trade invisible to the large-trade helper). -/
theorem index_one_record_per_timestamp {α : Type} (idx : List (ℤ × α))
    (k : ℤ) (v : α) (hsorted : (idx.map Prod.fst).Pairwise (· < ·)) :
    (((HotStorage.idxInsert idx k v).map Prod.fst).Pairwise (· < ·)
      ∧ ((HotStorage.idxInsert idx k v).map Prod.fst).Nodup
      ∧ (k, v) ∈ HotStorage.idxInsert idx k v)
    ∧ (c10S.trades = [c10T1, c10T2]
      ∧ c10S.trade_index = [(1000, c10T2)]
      ∧ HotStorage.get_trades_since c10S 0 = [c10T2]
      ∧ HotStorage.get_trades_range c10S 0 2000 = [c10T2]
      ∧ HotStorage.calculate_volume_in_window c10S 60 1000 = 2
      ∧ HotStorage.calculate_vwap_in_window c10S 60 1000 = some 101
      ∧ HotStorage.get_large_trades_in_window c10S 60 1000 = []) := by
  have hsorted' := HotStorage.idxInsert_keys_sorted idx k v hsorted
  have hidx : c10S.trade_index = [(1000, c10T2)] := by
    norm_num [c10S, HotStorage.add_trade, HotStorage.emptyState,
      HotStorage.idxInsert, HotStorage.cleanup_old, c10T1, c10T2]
  refine ⟨⟨hsorted', hsorted'.imp ne_of_lt,
    HotStorage.idxInsert_mem_self idx k v⟩, ?_, hidx, ?_, ?_, ?_, ?_, ?_⟩
  · norm_num [c10S, HotStorage.add_trade, HotStorage.emptyState, ringAppend,
      c10T1, c10T2]
  · norm_num [HotStorage.get_trades_since, hidx]
  · norm_num [HotStorage.get_trades_range, hidx]
  · norm_num [HotStorage.calculate_volume_in_window,
      HotStorage.get_trades_in_window, HotStorage.get_trades_since, hidx,
      c10T2]
  · norm_num [HotStorage.calculate_vwap_in_window,
      HotStorage.get_trades_in_window, HotStorage.get_trades_since, hidx,
      c10T2]
  · norm_num [HotStorage.get_large_trades_in_window,
      HotStorage.get_trades_in_window, HotStorage.get_trades_since, hidx,
      c10T2]

/-- Witness for C10 at the empty index. -/
theorem index_one_record_per_timestamp_witness :
    ((([] : List (ℤ × DataNormalizer.NormalizedTrade)).map Prod.fst).Pairwise
        (· < ·)
    ∧ ((((HotStorage.idxInsert ([] : List (ℤ × DataNormalizer.NormalizedTrade))
            0 c10T1).map Prod.fst).Pairwise (· < ·)
        ∧ ((HotStorage.idxInsert ([] : List (ℤ × DataNormalizer.NormalizedTrade))
            0 c10T1).map Prod.fst).Nodup
        ∧ ((0 : ℤ), c10T1) ∈ HotStorage.idxInsert
            ([] : List (ℤ × DataNormalizer.NormalizedTrade)) 0 c10T1)
      ∧ (c10S.trades = [c10T1, c10T2]
        ∧ c10S.trade_index = [(1000, c10T2)]
        ∧ HotStorage.get_trades_since c10S 0 = [c10T2]
        ∧ HotStorage.get_trades_range c10S 0 2000 = [c10T2]
        ∧ HotStorage.calculate_volume_in_window c10S 60 1000 = 2
        ∧ HotStorage.calculate_vwap_in_window c10S 60 1000 = some 101
        ∧ HotStorage.get_large_trades_in_window c10S 60 1000 = []))) :=
  ⟨by simp,
   index_one_record_per_timestamp ([] : List (ℤ × DataNormalizer.NormalizedTrade))
     0 c10T1 (by simp)⟩

namespace WebSocketConnector

/-- `ConnectionState` enum (`src/data_collector/websocket_connector.py`). -/
inductive ConnectionState
  | DISCONNECTED
  | CONNECTING
  | CONNECTED
  | RECONNECTING
  | FAILED
deriving DecidableEq

/-- The reconnection configuration resolved in `__init__` (from arguments
or `Settings.data`). -/
structure WSConfig where
  max_reconnect_attempts : ℕ
  initial_backoff : ℚ
  max_backoff : ℚ

/-- The connection-state fields the backoff machinery touches. -/
structure WSState where
  state : ConnectionState
  current_backoff : ℚ
  reconnect_count : ℕ

/-- The fields as set by `__init__`: disconnected, backoff at its initial
value, no reconnect attempts. -/
def initState (cfg : WSConfig) : WSState :=
  ⟨ConnectionState.DISCONNECTED, cfg.initial_backoff, 0⟩

/-- `_connect` with the network outcome passed in: success enters
`CONNECTED`, resets `current_backoff` to the initial value and zeroes
`reconnect_count`; failure enters `FAILED` and leaves both untouched. -/
def connect_update (cfg : WSConfig) (s : WSState) (success : Bool) : WSState :=
  if success then ⟨ConnectionState.CONNECTED, cfg.initial_backoff, 0⟩
  else { s with state := ConnectionState.FAILED }

/-- `_reconnect`: refuse once the attempt budget is exhausted; otherwise
sleep `current_backoff` (the returned delay), double it capped at
`max_backoff`, and run `_connect`. -/
def reconnect_step (cfg : WSConfig) (s : WSState) (success : Bool) :
    Option ℚ × WSState :=
  if cfg.max_reconnect_attempts ≤ s.reconnect_count then
    (none, { s with state := ConnectionState.FAILED })
  else
    let delay := s.current_backoff
    let s1 : WSState := ⟨ConnectionState.RECONNECTING,
      min (s.current_backoff * 2) cfg.max_backoff, s.reconnect_count + 1⟩
    (some delay, connect_update cfg s1 success)

/-- The delays slept over `n` consecutive failed reconnect attempts
(the list ends early once the budget is exhausted). -/
def failed_delays (cfg : WSConfig) : ℕ → WSState → List ℚ
  | 0, _ => []
  | n + 1, s =>
    match reconnect_step cfg s false with
    | (none, _) => []
    | (some d, s') => d :: failed_delays cfg n s'

end WebSocketConnector

namespace WebSocketConnector

/-- Invariant proof for the failed-reconnect delay sequence: starting
from a state whose backoff is within `[0, max_backoff]`, the slept delays
are non-decreasing and each is at most `max_backoff`. -/
lemma failed_delays_invariant (cfg : WSConfig) : ∀ (n : ℕ) (s : WSState),
    0 ≤ s.current_backoff → s.current_backoff ≤ cfg.max_backoff →
    (failed_delays cfg n s).Chain' (· ≤ ·)
    ∧ ∀ d ∈ failed_delays cfg n s,
        s.current_backoff ≤ d ∧ d ≤ cfg.max_backoff := by
  intro n
  induction n with
  | zero =>
    intro s h0 hm
    simp [failed_delays]
  | succ n ih =>
    intro s h0 hm
    by_cases hb : cfg.max_reconnect_attempts ≤ s.reconnect_count
    · simp [failed_delays, reconnect_step, hb]
    · have hstep : failed_delays cfg (n + 1) s
          = s.current_backoff :: failed_delays cfg n
              ⟨ConnectionState.FAILED,
                min (s.current_backoff * 2) cfg.max_backoff,
                s.reconnect_count + 1⟩ := by
        simp [failed_delays, reconnect_step, connect_update, hb]
      have h0' : (0:ℚ) ≤ min (s.current_backoff * 2) cfg.max_backoff :=
        le_min (by linarith) (le_trans h0 hm)
      have hm' : min (s.current_backoff * 2) cfg.max_backoff
          ≤ cfg.max_backoff := min_le_right _ _
      have hle : s.current_backoff
          ≤ min (s.current_backoff * 2) cfg.max_backoff :=
        le_min (by linarith) hm
      obtain ⟨hchain, hbd⟩ := ih ⟨ConnectionState.FAILED,
        min (s.current_backoff * 2) cfg.max_backoff,
        s.reconnect_count + 1⟩ h0' hm'
      rw [hstep]
      constructor
      · rw [List.chain'_cons']
        refine ⟨?_, hchain⟩
        intro b hbhead
        have hbmem := List.mem_of_mem_head? hbhead
        exact le_trans hle (hbd b hbmem).1
      · intro d hd
        rcases List.mem_cons.1 hd with rfl | hd
        · exact ⟨le_refl _, hm⟩
        · exact ⟨le_trans hle (hbd d hd).1, (hbd d hd).2⟩

end WebSocketConnector

/-- C8: with `0 ≤ initial_backoff ≤ max_backoff` (the defaults are 1s and
60s), the delays slept over any run of consecutive failed reconnect
attempts are non-decreasing and each bounded by `max_backoff`, and a
successful `_connect` resets the backoff to `initial_backoff` and the
attempt counter to zero. -/
theorem backoff_monotone (cfg : WebSocketConnector.WSConfig) (n : ℕ)
    (h0 : 0 ≤ cfg.initial_backoff)
    (hm : cfg.initial_backoff ≤ cfg.max_backoff) :
    (WebSocketConnector.failed_delays cfg n
        (WebSocketConnector.initState cfg)).Chain' (· ≤ ·)
    ∧ (∀ d ∈ WebSocketConnector.failed_delays cfg n
        (WebSocketConnector.initState cfg), d ≤ cfg.max_backoff)
    ∧ (∀ s : WebSocketConnector.WSState,
        (WebSocketConnector.connect_update cfg s true).current_backoff
            = cfg.initial_backoff
        ∧ (WebSocketConnector.connect_update cfg s true).reconnect_count
            = 0) := by
  obtain ⟨hchain, hbd⟩ := WebSocketConnector.failed_delays_invariant cfg n
    (WebSocketConnector.initState cfg) h0 hm
  exact ⟨hchain, fun d hd => (hbd d hd).2, fun s => ⟨rfl, rfl⟩⟩

/-- The default reconnect configuration (10 attempts, 1s initial backoff,
60s cap). -/
def c8Cfg : WebSocketConnector.WSConfig := ⟨10, 1, 60⟩

/-- Witness for C8 at the default configuration and four failed
attempts. -/
theorem backoff_monotone_witness :
    ((0 : ℚ) ≤ c8Cfg.initial_backoff
      ∧ c8Cfg.initial_backoff ≤ c8Cfg.max_backoff)
    ∧ ((WebSocketConnector.failed_delays c8Cfg 4
          (WebSocketConnector.initState c8Cfg)).Chain' (· ≤ ·)
      ∧ (∀ d ∈ WebSocketConnector.failed_delays c8Cfg 4
          (WebSocketConnector.initState c8Cfg), d ≤ c8Cfg.max_backoff)
      ∧ (∀ s : WebSocketConnector.WSState,
          (WebSocketConnector.connect_update c8Cfg s true).current_backoff
              = c8Cfg.initial_backoff
          ∧ (WebSocketConnector.connect_update c8Cfg s true).reconnect_count
              = 0)) :=
  ⟨⟨by norm_num [c8Cfg], by norm_num [c8Cfg]⟩,
   backoff_monotone c8Cfg 4 (by norm_num [c8Cfg]) (by norm_num [c8Cfg])⟩
